import Mathlib

/-!
Shallow embedding of the wire-protocol codec layer of `cassandra-proto`
(files `src/query/query_params.rs`, `src/query/query_params_builder.rs`,
`src/frame/parser_async.rs`), together with theorems settling the frozen
claims about it.

Bytes are modelled as `List Nat` (each entry a byte value); machine integers
as `Int`/`Nat` with explicit reduction modulo `2^w` where the code wraps.
Fallible parsing returns `Except Err (α × List Nat)`: the parsed value and
the bytes the cursor has not consumed yet.

Helper types the repository defines outside the three staged files
(`Consistency`, `QueryFlags`, `QueryValues`, `Value`, `CBytes`, `CString`,
frame `Flag`/`Opcode`/`Version`, the byte-order helpers) are modelled from
the spec; each such definition says so in its doc comment.
-/

namespace CassProto

/-- A byte buffer: each entry is one byte value. -/
abbrev Bytes := List Nat

/-- Modelled from the spec: decode errors.  `IoError` stands for the
repository's wrapped I/O error (a read past the end of a cursor),
`General` for `Error::General(String)`, `Server` for `Error::Server`
carrying a structured server-error payload. -/
inductive Err
  | IoError
  | General (msg : String)
  | Server (code : Int) (message : Bytes)
  deriving DecidableEq, Repr

/-- Sequencing of cursor reads: stop on the first error, otherwise feed the
parsed value and the remaining bytes to the continuation (the `?` operator
of the Rust source). -/
def rbind {α β : Type} (m : Except Err (α × Bytes))
    (k : α → Bytes → Except Err (β × Bytes)) : Except Err (β × Bytes) :=
  match m with
  | .error e => .error e
  | .ok (a, s) => k a s

/-- Big-endian value of a byte list (`from_bytes` of the repository's types
module, modelled from the spec: network byte order throughout). -/
def natOfBytesBE (bs : Bytes) : Nat :=
  bs.foldl (fun acc b => acc * 256 + b) 0

/-- The `w`-byte big-endian representation of `v % 2^(8*w)`. -/
def bytesOfNatBE : Nat → Nat → Bytes
  | 0, _ => []
  | w + 1, v => bytesOfNatBE w (v / 256) ++ [v % 256]

/-- Modelled from the spec: `to_short`, the 2-byte big-endian encoding of a
16-bit integer (two's complement for negative values). -/
def toShort (x : Int) : Bytes := bytesOfNatBE 2 (x % 65536).toNat

/-- Modelled from the spec: `to_int`, the 4-byte big-endian encoding of a
32-bit integer (two's complement for negative values). -/
def toInt (x : Int) : Bytes := bytesOfNatBE 4 (x % 4294967296).toNat

/-- Modelled from the spec: `to_bigint`, the 8-byte big-endian encoding of a
64-bit integer (two's complement for negative values). -/
def toBigint (x : Int) : Bytes := bytesOfNatBE 8 (x % 18446744073709551616).toNat

/-- Read exactly `n` bytes from the cursor (`cursor_next_value` /
`read_exact`): an error when fewer are available. -/
def readExact (n : Nat) (s : Bytes) : Except Err (Bytes × Bytes) :=
  if n ≤ s.length then .ok (s.take n, s.drop n) else .error Err.IoError

/-- `read_u8`: one byte. -/
def readU8 (s : Bytes) : Except Err (Nat × Bytes) :=
  match s with
  | [] => .error Err.IoError
  | b :: rest => .ok (b, rest)

/-- `read_u16::<BigEndian>`: two bytes, big-endian unsigned. -/
def readU16 (s : Bytes) : Except Err (Nat × Bytes) :=
  rbind (readExact 2 s) fun bs s => .ok (natOfBytesBE bs, s)

/-- The signed value of four big-endian bytes (two's complement). -/
def i32OfBytes (bs : Bytes) : Int :=
  let u := natOfBytesBE bs
  if u < 2147483648 then (u : Int) else (u : Int) - 4294967296

/-- The signed value of eight big-endian bytes (two's complement). -/
def i64OfBytes (bs : Bytes) : Int :=
  let u := natOfBytesBE bs
  if u < 9223372036854775808 then (u : Int) else (u : Int) - 18446744073709551616

/-- `read_i32::<BigEndian>`: four bytes, big-endian signed. -/
def readI32 (s : Bytes) : Except Err (Int × Bytes) :=
  rbind (readExact 4 s) fun bs s => .ok (i32OfBytes bs, s)

/-- `read_i64::<BigEndian>`: eight bytes, big-endian signed. -/
def readI64 (s : Bytes) : Except Err (Int × Bytes) :=
  rbind (readExact 8 s) fun bs s => .ok (i64OfBytes bs, s)

/-- Modelled from the spec: `Consistency`, the enumerated consistency level,
opaque to this core beyond its 2-byte big-endian wire encoding; `code` is
the enumeration's wire value (`One = 1`). -/
structure Consistency where
  code : Nat
  deriving DecidableEq, Repr

instance : Inhabited Consistency := ⟨⟨1⟩⟩

/-- Modelled from the spec: the consistency level's 2-byte encoding. -/
def Consistency.intoCbytes (c : Consistency) : Bytes := toShort (c.code : Int)

/-- Modelled from the spec: decoding a consistency level from the cursor. -/
def Consistency.fromCursor (s : Bytes) : Except Err (Consistency × Bytes) :=
  rbind (readU16 s) fun n s => .ok (Consistency.mk n, s)

/-- Modelled from the spec: `CString::from_cursor`, a 2-byte big-endian
length followed by that many bytes; `as_plain` keeps the raw bytes. -/
def CString.fromCursor (s : Bytes) : Except Err (Bytes × Bytes) :=
  rbind (readU16 s) fun n s => readExact n s

/-- Modelled from the spec: a `CString`'s encoding, the 2-byte length prefix
followed by the bytes. -/
def cstringIntoCbytes (name : Bytes) : Bytes := toShort (name.length : Int) ++ name

/-- Modelled from the spec: `CBytes`, the opaque length-prefixed byte string
used for the paging-state token. -/
structure CBytes where
  bytes : Bytes
  deriving DecidableEq, Repr

instance : Inhabited CBytes := ⟨⟨[]⟩⟩

/-- Modelled from the spec: a `CBytes`'s encoding, the 4-byte signed length
followed by the bytes. -/
def CBytes.intoCbytes (cb : CBytes) : Bytes := toInt (cb.bytes.length : Int) ++ cb.bytes

/-- Modelled from the spec: decoding a `CBytes` from the cursor: a 4-byte
signed length, then that many bytes; a negative length is a decode error. -/
def CBytes.fromCursor (s : Bytes) : Except Err (CBytes × Bytes) :=
  rbind (readI32 s) fun len s =>
    if len < 0 then .error (Err.General "Could not decode paging state")
    else rbind (readExact len.toNat s) fun bs s => .ok (CBytes.mk bs, s)

/-- Modelled from the spec: `ValueType`, the tagged three-way value state;
`Normal` carries the body's byte length as a 32-bit integer. -/
inductive ValueType
  | Normal (len : Int)
  | Null
  | NotSet
  deriving DecidableEq, Repr

/-- Modelled from the spec: `Value`, one query argument. -/
structure Value where
  body : Bytes
  value_type : ValueType
  deriving DecidableEq, Repr

/-- `Value::new_normal`. -/
def Value.newNormal (body : Bytes) : Value :=
  { body := body, value_type := ValueType.Normal (body.length : Int) }

/-- `Value::new_null`. -/
def Value.newNull : Value := { body := [], value_type := ValueType.Null }

/-- `Value::new_not_set`. -/
def Value.newNotSet : Value := { body := [], value_type := ValueType.NotSet }

/-- Modelled from the spec: a value's encoding, the 4-byte signed length
(`-1` for null, `-2` for not-set) followed by the payload. -/
def Value.intoCbytes (v : Value) : Bytes :=
  match v.value_type with
  | ValueType.Normal n => toInt n ++ v.body
  | ValueType.Null => toInt (-1)
  | ValueType.NotSet => toInt (-2)

/-- Modelled from the spec: `QueryValues`, either an ordered positional list
or a name-keyed mapping (modelled as an association list with unique keys). -/
inductive QueryValues
  | SimpleValues (values : List Value)
  | NamedValues (values : List (Bytes × Value))
  deriving DecidableEq, Repr

instance : Inhabited QueryValues := ⟨QueryValues.SimpleValues []⟩

/-- `QueryValues::len`. -/
def QueryValues.len : QueryValues → Nat
  | .SimpleValues values => values.length
  | .NamedValues values => values.length

/-- `QueryValues::with_names`: whether the value list is name-tagged. -/
def QueryValues.withNames : QueryValues → Bool
  | .SimpleValues _ => false
  | .NamedValues _ => true

/-- Modelled from the spec: each value in order, a named value preceded by
its length-prefixed name. -/
def QueryValues.intoCbytes : QueryValues → Bytes
  | .SimpleValues values => values.foldl (fun acc v => acc ++ v.intoCbytes) []
  | .NamedValues values =>
      values.foldl (fun acc nv => acc ++ cstringIntoCbytes nv.1 ++ nv.2.intoCbytes) []

/-- `HashMap::insert` on the association list model: replace the value of an
existing key, otherwise append the new pair. -/
def insertNamed : List (Bytes × Value) → Bytes → Value → List (Bytes × Value)
  | [], k, v => [(k, v)]
  | (k', v') :: rest, k, v =>
      if k' = k then (k, v) :: rest else (k', v') :: insertNamed rest k v

/-- Modelled from the spec: the query-flag bitmask's named bits. -/
inductive QueryFlags
  | Value
  | SkipMetadata
  | PageSize
  | WithPagingState
  | WithSerialConsistency
  | WithDefaultTimestamp
  | WithNamesForValues
  deriving DecidableEq, Repr

/-- Modelled from the spec: each query flag's bit. -/
def QueryFlags.asByte : QueryFlags → Nat
  | .Value => 0x01
  | .SkipMetadata => 0x02
  | .PageSize => 0x04
  | .WithPagingState => 0x08
  | .WithSerialConsistency => 0x10
  | .WithDefaultTimestamp => 0x20
  | .WithNamesForValues => 0x40

/-- `QueryFlags::has_value`. -/
def QueryFlags.hasValue (byte : Nat) : Bool := byte &&& 0x01 != 0

/-- `QueryFlags::has_skip_metadata`. -/
def QueryFlags.hasSkipMetadata (byte : Nat) : Bool := byte &&& 0x02 != 0

/-- `QueryFlags::has_page_size`. -/
def QueryFlags.hasPageSize (byte : Nat) : Bool := byte &&& 0x04 != 0

/-- `QueryFlags::has_with_paging_state`. -/
def QueryFlags.hasWithPagingState (byte : Nat) : Bool := byte &&& 0x08 != 0

/-- `QueryFlags::has_with_serial_consistency`. -/
def QueryFlags.hasWithSerialConsistency (byte : Nat) : Bool := byte &&& 0x10 != 0

/-- `QueryFlags::has_with_default_timestamp`. -/
def QueryFlags.hasWithDefaultTimestamp (byte : Nat) : Bool := byte &&& 0x20 != 0

/-- `QueryFlags::has_with_names_for_values`. -/
def QueryFlags.hasWithNamesForValues (byte : Nat) : Bool := byte &&& 0x40 != 0

/-- `QueryParams` (`src/query/query_params.rs`). -/
structure QueryParams where
  consistency : Consistency
  flags : List QueryFlags
  with_names : Option Bool
  values : Option QueryValues
  page_size : Option Int
  paging_state : Option CBytes
  serial_consistency : Option Consistency
  timestamp : Option Int
  deriving DecidableEq, Repr

/-- `QueryParams::default()`: default consistency (`One`), no flags, every
optional field absent. -/
def QueryParams.mkDefault : QueryParams :=
  { consistency := ⟨1⟩, flags := [], with_names := none, values := none,
    page_size := none, paging_state := none, serial_consistency := none,
    timestamp := none }

/-- `QueryParams::flags_as_byte`: the bitwise-or fold of the stored flags
list. -/
def QueryParams.flagsAsByte (p : QueryParams) : Nat :=
  p.flags.foldl (fun acc flag => acc ||| flag.asByte) 0

/-- `QueryParams::parse_query_flags`: the canonical flag list of a flags
byte, in the source's push order. -/
def QueryParams.parseQueryFlags (byte : Nat) : List QueryFlags :=
  (if QueryFlags.hasValue byte then [QueryFlags.Value] else []) ++
  (if QueryFlags.hasSkipMetadata byte then [QueryFlags.SkipMetadata] else []) ++
  (if QueryFlags.hasPageSize byte then [QueryFlags.PageSize] else []) ++
  (if QueryFlags.hasWithPagingState byte then [QueryFlags.WithPagingState] else []) ++
  (if QueryFlags.hasWithSerialConsistency byte then [QueryFlags.WithSerialConsistency] else []) ++
  (if QueryFlags.hasWithDefaultTimestamp byte then [QueryFlags.WithDefaultTimestamp] else []) ++
  (if QueryFlags.hasWithNamesForValues byte then [QueryFlags.WithNamesForValues] else [])

/-- One positional value of `QueryParams::from_cursor`: a 4-byte signed
length, then the payload (`> 0`), null (`-1`), not-set (`-2`), or the
"Could not decode query values" error. -/
def readSimpleValue (s : Bytes) : Except Err (Value × Bytes) :=
  rbind (readI32 s) fun value_size s =>
  if 0 < value_size then
    rbind (readExact value_size.toNat s) fun body s =>
      .ok ({ body := body, value_type := ValueType.Normal (body.length : Int) }, s)
  else if value_size = -1 then .ok (Value.newNull, s)
  else if value_size = -2 then .ok (Value.newNotSet, s)
  else .error (Err.General "Could not decode query values")

/-- The positional-value loop of `QueryParams::from_cursor`: `n` values in
order (the source's `for _ in 1..number_of_values` runs
`number_of_values - 1` times, so it is called with that count). -/
def readSimpleValues : Nat → Bytes → Except Err (List Value × Bytes)
  | 0, s => .ok ([], s)
  | n + 1, s =>
      rbind (readSimpleValue s) fun v s =>
      rbind (readSimpleValues n s) fun vec s =>
      .ok (v :: vec, s)

/-- One named value of `QueryParams::from_cursor`: a length-prefixed name,
then the same 4-byte signed length dispatch as the positional case. -/
def readNamedValue (s : Bytes) : Except Err ((Bytes × Value) × Bytes) :=
  rbind (CString.fromCursor s) fun name s =>
  rbind (readI32 s) fun value_size s =>
  rbind (if 0 < value_size then
           rbind (readExact value_size.toNat s) fun body s =>
             .ok (Value.newNormal body, s)
         else if value_size = -1 then .ok (Value.newNull, s)
         else if value_size = -2 then .ok (Value.newNotSet, s)
         else .error (Err.General "Could not decode query values")) fun val s =>
  .ok ((name, val), s)

/-- The named-value loop of `QueryParams::from_cursor`, accumulating into
the name-keyed map. -/
def readNamedValues : Nat → List (Bytes × Value) → Bytes →
    Except Err (List (Bytes × Value) × Bytes)
  | 0, map, s => .ok (map, s)
  | n + 1, map, s =>
      rbind (readNamedValue s) fun nv s =>
      readNamedValues n (insertNamed map nv.1 nv.2) s

/-- `QueryParams::from_cursor` (`src/query/query_params.rs`): consistency,
flags byte, then each optional section gated by its flag bit; the value
count is one byte and the loop runs `1..count`. -/
def QueryParams.fromCursor (s : Bytes) : Except Err (QueryParams × Bytes) :=
  rbind (Consistency.fromCursor s) fun consistency s =>
  rbind (readU8 s) fun flags_byte s =>
  rbind (if QueryFlags.hasValue flags_byte then
           rbind (readU8 s) fun number_of_values s =>
           if QueryFlags.hasWithNamesForValues flags_byte then
             rbind (readNamedValues (number_of_values - 1) [] s) fun map s =>
               .ok (some (QueryValues.NamedValues map), s)
           else
             rbind (readSimpleValues (number_of_values - 1) s) fun vec s =>
               .ok (some (QueryValues.SimpleValues vec), s)
         else .ok (none, s)) fun values s =>
  rbind (if QueryFlags.hasPageSize flags_byte then
           rbind (readI32 s) fun ps s => .ok (some ps, s)
         else .ok (none, s)) fun page_size s =>
  rbind (if QueryFlags.hasWithPagingState flags_byte then
           rbind (CBytes.fromCursor s) fun cb s => .ok (some cb, s)
         else .ok (none, s)) fun paging_state s =>
  rbind (if QueryFlags.hasWithSerialConsistency flags_byte then
           rbind (Consistency.fromCursor s) fun c s => .ok (some c, s)
         else .ok (none, s)) fun serial_consistency s =>
  rbind (if QueryFlags.hasWithDefaultTimestamp flags_byte then
           rbind (readI64 s) fun t s => .ok (some t, s)
         else .ok (none, s)) fun timestamp s =>
  .ok ({ consistency := consistency, flags := QueryParams.parseQueryFlags flags_byte,
         with_names := some (QueryFlags.hasWithNamesForValues flags_byte),
         values := values, page_size := page_size, paging_state := paging_state,
         serial_consistency := serial_consistency, timestamp := timestamp }, s)

/-- `QueryParams::into_cbytes` (`src/query/query_params.rs`): consistency,
the stored-flags byte, then each optional section emitted when its flag bit
is derivable from the stored flags list and the field is populated.  Note
the value count is written with `to_short` (two bytes). -/
def QueryParams.intoCbytes (p : QueryParams) : Bytes :=
  let v := p.consistency.intoCbytes ++ [p.flagsAsByte]
  let v := if QueryFlags.hasValue p.flagsAsByte then
      match p.values with
      | some values => v ++ toShort (values.len : Int) ++ values.intoCbytes
      | none => v
    else v
  let v := if QueryFlags.hasPageSize p.flagsAsByte && p.page_size.isSome then
      v ++ toInt p.page_size.get!
    else v
  let v := if QueryFlags.hasWithPagingState p.flagsAsByte && p.paging_state.isSome then
      v ++ (p.paging_state.get!).intoCbytes
    else v
  let v := if QueryFlags.hasWithSerialConsistency p.flagsAsByte && p.serial_consistency.isSome then
      v ++ (p.serial_consistency.get!).intoCbytes
    else v
  let v := if QueryFlags.hasWithDefaultTimestamp p.flagsAsByte && p.timestamp.isSome then
      v ++ toBigint p.timestamp.get!
    else v
  v

/-- `QueryParamsBuilder` (`src/query/query_params_builder.rs`). -/
structure QueryParamsBuilder where
  consistency : Consistency
  flags : Option (List QueryFlags)
  values : Option QueryValues
  with_names : Option Bool
  page_size : Option Int
  paging_state : Option CBytes
  serial_consistency : Option Consistency
  timestamp : Option Int
  deriving DecidableEq, Repr

/-- `QueryParamsBuilder::new()`: the default builder (consistency `One`,
everything else unset). -/
def QueryParamsBuilder.new : QueryParamsBuilder :=
  { consistency := ⟨1⟩, flags := none, values := none, with_names := none,
    page_size := none, paging_state := none, serial_consistency := none,
    timestamp := none }

/-- `QueryParamsBuilder::consistency`. -/
def QueryParamsBuilder.consistency' (b : QueryParamsBuilder) (consistency : Consistency) :
    QueryParamsBuilder :=
  { b with consistency := consistency }

/-- `QueryParamsBuilder::flags`. -/
def QueryParamsBuilder.flags' (b : QueryParamsBuilder) (flags : List QueryFlags) :
    QueryParamsBuilder :=
  { b with flags := some flags }

/-- `QueryParamsBuilder::values`: stores the values, records `with_names`
from the value list's own shape, and pushes `Value` (and, when named,
`WithNamesForValues`) onto the flags list. -/
def QueryParamsBuilder.values' (b : QueryParamsBuilder) (values : QueryValues) :
    QueryParamsBuilder :=
  let with_names := values.withNames
  { b with
    with_names := some with_names,
    values := some values,
    flags := (b.flags.or (some [])).map fun flags =>
      (flags ++ [QueryFlags.Value]) ++
        (if with_names then [QueryFlags.WithNamesForValues] else []) }

/-- `QueryParamsBuilder::with_names`. -/
def QueryParamsBuilder.with_names' (b : QueryParamsBuilder) (with_names : Bool) :
    QueryParamsBuilder :=
  { b with with_names := some with_names }

/-- `QueryParamsBuilder::page_size`: stores the size and pushes `PageSize`
onto the flags list. -/
def QueryParamsBuilder.page_size' (b : QueryParamsBuilder) (size : Int) :
    QueryParamsBuilder :=
  { b with
    page_size := some size,
    flags := (b.flags.or (some [])).map fun flags => flags ++ [QueryFlags.PageSize] }

/-- `QueryParamsBuilder::paging_state`: stores the token and pushes
`WithPagingState` onto the flags list. -/
def QueryParamsBuilder.paging_state' (b : QueryParamsBuilder) (state : CBytes) :
    QueryParamsBuilder :=
  { b with
    paging_state := some state,
    flags := (b.flags.or (some [])).map fun flags => flags ++ [QueryFlags.WithPagingState] }

/-- `QueryParamsBuilder::serial_consistency`: stores the value; the source
does not touch the flags list here. -/
def QueryParamsBuilder.serial_consistency' (b : QueryParamsBuilder)
    (serial_consistency : Consistency) : QueryParamsBuilder :=
  { b with serial_consistency := some serial_consistency }

/-- `QueryParamsBuilder::timestamp`: stores the value; the source does not
touch the flags list here. -/
def QueryParamsBuilder.timestamp' (b : QueryParamsBuilder) (timestamp : Int) :
    QueryParamsBuilder :=
  { b with timestamp := some timestamp }

/-- `QueryParamsBuilder::finalize`. -/
def QueryParamsBuilder.finalize (b : QueryParamsBuilder) : QueryParams :=
  { consistency := b.consistency,
    flags := b.flags.getD [],
    with_names := b.with_names,
    values := b.values,
    page_size := b.page_size,
    paging_state := b.paging_state,
    serial_consistency := b.serial_consistency,
    timestamp := b.timestamp }

/-- Modelled from the spec: the frame flag bitmask's named bits. -/
inductive Flag
  | Compression
  | Tracing
  | CustomPayload
  | Warning
  deriving DecidableEq, Repr

/-- Modelled from the spec: `Flag::get_collection`, the set of frame flags
recovered from one bitmask byte by independent bit tests. -/
def Flag.getCollection (byte : Nat) : List Flag :=
  (if byte &&& 0x01 != 0 then [Flag.Compression] else []) ++
  (if byte &&& 0x02 != 0 then [Flag.Tracing] else []) ++
  (if byte &&& 0x04 != 0 then [Flag.CustomPayload] else []) ++
  (if byte &&& 0x08 != 0 then [Flag.Warning] else [])

/-- Modelled from the spec: the protocol version byte, kept verbatim. -/
structure Version where
  byte : Nat
  deriving DecidableEq, Repr

/-- Modelled from the spec: `Version::from`, keeping the single byte. -/
def Version.fromBytes (bs : Bytes) : Version := ⟨bs.headD 0⟩

/-- Modelled from the spec: the opcode, with `Error` (wire value `0`)
distinguished and every other opcode kept by wire value. -/
inductive Opcode
  | Error
  | Other (code : Nat)
  deriving DecidableEq, Repr

/-- Modelled from the spec: `Opcode::from` on the opcode byte. -/
def Opcode.fromByte (b : Nat) : Opcode := if b = 0 then Opcode.Error else Opcode.Other b

/-- `from_u16_bytes`: the stream id's 2-byte big-endian unsigned value. -/
def fromU16Bytes (bs : Bytes) : Nat := natOfBytesBE bs

/-- `from_bytes`: the body length's big-endian unsigned value. -/
def fromBytes (bs : Bytes) : Nat := natOfBytesBE bs

/-- Modelled from the spec: `CStringList::from_cursor`'s inner loop, `n`
length-prefixed strings in order. -/
def readStrings : Nat → Bytes → Except Err (List Bytes × Bytes)
  | 0, s => .ok ([], s)
  | n + 1, s =>
      rbind (CString.fromCursor s) fun str s =>
      rbind (readStrings n s) fun strs s =>
      .ok (str :: strs, s)

/-- Modelled from the spec: `CStringList::from_cursor`, a 2-byte count
followed by that many length-prefixed strings; `into_plain` keeps the raw
string bytes. -/
def CStringList.fromCursor (s : Bytes) : Except Err (List Bytes × Bytes) :=
  rbind (readU16 s) fun n s => readStrings n s

/-- Modelled from the spec: `decode_timeuuid`, the fixed 16-byte
time-ordered unique identifier; decoding fails unless the identifier is 16
bytes whose version nibble marks a time-ordered identifier. -/
def decodeTimeuuid (bs : Bytes) : Except String Bytes :=
  if bs.length = 16 ∧ bs.getD 6 0 / 16 = 1 then .ok bs else .error "Invalid timeuuid"

/-- `Frame` (decoded protocol message). -/
structure Frame where
  version : Version
  flags : List Flag
  opcode : Opcode
  stream : Nat
  body : Bytes
  tracing_id : Option Bytes
  warnings : List Bytes
  deriving DecidableEq, Repr

/-- The post-decompression part of `parse_frame_async`
(`src/frame/parser_async.rs`): a cursor over the full body reads the 16-byte
tracing identifier when the Tracing flag is set (a failed identifier decode
degrades to `none` via `.ok()`), the warning list when the Warning flag is
set, and the remaining bytes become the frame's body. -/
def frameFromFullBody (version : Version) (flags : List Flag) (opcode : Opcode)
    (stream : Nat) (full_body : Bytes) : Except Err Frame :=
  match rbind (if flags.contains Flag.Tracing then
                 rbind (readExact 16 full_body) fun tracing_bytes s =>
                   .ok ((decodeTimeuuid tracing_bytes).toOption, s)
               else .ok (none, full_body)) fun tracing_id s =>
        rbind (if flags.contains Flag.Warning then CStringList.fromCursor s
               else .ok ([], s)) fun warnings s =>
        .ok (({ version := version, flags := flags, opcode := opcode,
                stream := stream, body := s, tracing_id := tracing_id,
                warnings := warnings } : Frame), ([] : Bytes)) with
  | .error e => .error e
  | .ok (frame, _) => .ok frame

/-- `parse_frame_async` (`src/frame/parser_async.rs`) on the bytes the
caller's buffer currently holds: five header reads and the body read each
return the "insufficient data" signal (`.ok none`) when short
(`proceed_if_filled!`); the raw body goes through the compressor when the
Compression flag is set; the full body is then split into tracing id,
warnings and the frame body. -/
def parseFrameAsync (comp : Bytes → Except String Bytes) (s : Bytes) :
    Except Err (Option Frame) :=
  if s.length < 1 then .ok none else
  let version_bytes := s.take 1
  let s1 := s.drop 1
  if s1.length < 1 then .ok none else
  let flag_bytes := s1.take 1
  let s2 := s1.drop 1
  if s2.length < 2 then .ok none else
  let stream_bytes := s2.take 2
  let s3 := s2.drop 2
  if s3.length < 1 then .ok none else
  let opcode_bytes := s3.take 1
  let s4 := s3.drop 1
  if s4.length < 4 then .ok none else
  let length_bytes := s4.take 4
  let s5 := s4.drop 4
  let version := Version.fromBytes version_bytes
  let flags := Flag.getCollection (flag_bytes.headD 0)
  let stream := fromU16Bytes stream_bytes
  let opcode := Opcode.fromByte (opcode_bytes.headD 0)
  let length := fromBytes length_bytes
  if s5.length < length then .ok none else
  let body_bytes := s5.take length
  match (if flags.contains Flag.Compression then comp body_bytes
         else .ok body_bytes) with
  | .error e => .error (Err.General e)
  | .ok full_body => (frameFromFullBody version flags opcode stream full_body).map some

/-- Modelled from the spec: the server-error-body decoder behind
`Frame::get_body` for the `Error` opcode, producing the structured server
error (code and message). -/
def decodeServerError (bs : Bytes) : Except Err (Int × Bytes) :=
  match rbind (readI32 bs) fun code s =>
        rbind (CString.fromCursor s) fun message s =>
        .ok ((code, message), s) with
  | .error e => .error e
  | .ok (err, _) => .ok err

/-- Modelled from the spec: `ResponseBody`, of which only the error payload
is decoded by this core. -/
inductive ResponseBody
  | Error (code : Int) (message : Bytes)
  | Other (bytes : Bytes)
  deriving DecidableEq, Repr

/-- Modelled from the spec: `Frame::get_body`: for the `Error` opcode the
body must decode as the structured server-error payload; any other opcode's
body is left for a higher layer. -/
def Frame.getBody (f : Frame) : Except Err ResponseBody :=
  match f.opcode with
  | Opcode.Error =>
      match decodeServerError f.body with
      | .error e => .error e
      | .ok (code, message) => .ok (ResponseBody.Error code message)
  | Opcode.Other _ => .ok (ResponseBody.Other f.body)

/-- `convert_frame_into_result` (`src/frame/parser_async.rs`): an
Error-opcode frame's decoded server error is surfaced as `Err::Server`;
every other frame is returned unchanged. -/
def convertFrameIntoResult (frame : Frame) : Except Err Frame :=
  match frame.opcode with
  | Opcode.Error =>
      match frame.getBody with
      | .error e => .error e
      | .ok (ResponseBody.Error code message) => .error (Err.Server code message)
      | .ok (ResponseBody.Other _) => .error (Err.General "unreachable")
  | Opcode.Other _ => .ok frame

/-! Definitions following the spec's words, for comparison with the
source-derived definitions above. -/

/-- The spec's words (claim C4): the logical OR of the flag bits implied by
which optional fields are actually populated. -/
def impliedFlagsByte (p : QueryParams) : Nat :=
  (if p.values.isSome then QueryFlags.Value.asByte else 0) |||
  (if p.page_size.isSome then QueryFlags.PageSize.asByte else 0) |||
  (if p.paging_state.isSome then QueryFlags.WithPagingState.asByte else 0) |||
  (if p.serial_consistency.isSome then QueryFlags.WithSerialConsistency.asByte else 0) |||
  (if p.timestamp.isSome then QueryFlags.WithDefaultTimestamp.asByte else 0)

/-- The spec's words (claim C10): after consistency and the flags byte, each
optional field's bytes are written exactly when its flag bit is derivable
from the stored flags list and the field itself is populated; on any
flag/field mismatch the section is silently omitted. -/
def QueryParams.intoCbytesSpec (p : QueryParams) : Bytes :=
  p.consistency.intoCbytes ++ [p.flagsAsByte] ++
  (if QueryFlags.hasValue p.flagsAsByte && p.values.isSome then
     toShort ((p.values.get!).len : Int) ++ (p.values.get!).intoCbytes
   else []) ++
  (if QueryFlags.hasPageSize p.flagsAsByte && p.page_size.isSome then
     toInt p.page_size.get!
   else []) ++
  (if QueryFlags.hasWithPagingState p.flagsAsByte && p.paging_state.isSome then
     (p.paging_state.get!).intoCbytes
   else []) ++
  (if QueryFlags.hasWithSerialConsistency p.flagsAsByte && p.serial_consistency.isSome then
     (p.serial_consistency.get!).intoCbytes
   else []) ++
  (if QueryFlags.hasWithDefaultTimestamp p.flagsAsByte && p.timestamp.isSome then
     toBigint p.timestamp.get!
   else [])

/-- Validity of a value-free `QueryParams` for the amended round-trip claim:
the stored flags list is the canonical list of its own byte, the `Value` bit
is absent and `values` empty, `with_names` mirrors the `WithNamesForValues`
bit, and each remaining optional field is populated exactly when its flag
bit is set, with its value inside the wire type's range. -/
def QueryParams.wfNoValues (p : QueryParams) : Bool :=
  decide (p.consistency.code < 65536) &&
  decide (p.flags = QueryParams.parseQueryFlags p.flagsAsByte) &&
  !QueryFlags.hasValue p.flagsAsByte &&
  p.values.isNone &&
  decide (p.with_names = some (QueryFlags.hasWithNamesForValues p.flagsAsByte)) &&
  (QueryFlags.hasPageSize p.flagsAsByte == p.page_size.isSome) &&
  p.page_size.all (fun x => decide (-2147483648 ≤ x) && decide (x < 2147483648)) &&
  (QueryFlags.hasWithPagingState p.flagsAsByte == p.paging_state.isSome) &&
  p.paging_state.all (fun cb => decide (cb.bytes.length < 2147483648)) &&
  (QueryFlags.hasWithSerialConsistency p.flagsAsByte == p.serial_consistency.isSome) &&
  p.serial_consistency.all (fun c => decide (c.code < 65536)) &&
  (QueryFlags.hasWithDefaultTimestamp p.flagsAsByte == p.timestamp.isSome) &&
  p.timestamp.all (fun t =>
    decide (-9223372036854775808 ≤ t) && decide (t < 9223372036854775808))

/-- The page-size section of a value-free encoding: the field's 4-byte
encoding when populated, nothing otherwise. -/
def optIntSec (o : Option Int) : Bytes := o.elim [] toInt

/-- The paging-state section of a value-free encoding. -/
def optCBytesSec (o : Option CBytes) : Bytes := o.elim [] CBytes.intoCbytes

/-- The serial-consistency section of a value-free encoding. -/
def optConsSec (o : Option Consistency) : Bytes := o.elim [] Consistency.intoCbytes

/-- The timestamp section of a value-free encoding. -/
def optTsSec (o : Option Int) : Bytes := o.elim [] toBigint

/-- The spec's concrete round-trip scenario (claim C1): consistency `One`,
two positional values `[Normal "x", Null]`, no other optional field. -/
def roundTripCexParams : QueryParams :=
  { consistency := ⟨1⟩, flags := [QueryFlags.Value], with_names := some false,
    values := some (QueryValues.SimpleValues
      [{ body := [120], value_type := ValueType.Normal 1 }, Value.newNull]),
    page_size := none, paging_state := none, serial_consistency := none,
    timestamp := none }

/-- A `QueryParams` whose stored flags list disagrees with its populated
fields (claim C4): the `PageSize` flag is stored but `page_size` is empty. -/
def staleFlagsParams : QueryParams :=
  { consistency := ⟨1⟩, flags := [QueryFlags.PageSize], with_names := none,
    values := none, page_size := none, paging_state := none,
    serial_consistency := none, timestamp := none }

/-- A fully-populated (values aside) valid `QueryParams` used as the
round-trip witness input. -/
def roundTripWitnessParams : QueryParams :=
  { consistency := ⟨1⟩,
    flags := [QueryFlags.PageSize, QueryFlags.WithPagingState,
              QueryFlags.WithSerialConsistency, QueryFlags.WithDefaultTimestamp],
    with_names := some false, values := none, page_size := some 10,
    paging_state := some ⟨[1, 2]⟩, serial_consistency := some ⟨8⟩,
    timestamp := some (-5) }

/-- A frame carrying a decodable server error (claim C8's witness): error
code `-3`, message `"x"`. -/
def errorFrameEx : Frame :=
  { version := ⟨132⟩, flags := [], opcode := Opcode.Error, stream := 1,
    body := toInt (-3) ++ cstringIntoCbytes [120], tracing_id := none,
    warnings := [] }

instance {ε α : Type} [DecidableEq ε] [DecidableEq α] : DecidableEq (Except ε α) :=
  fun x y =>
    match x, y with
    | .ok a, .ok b =>
        if h : a = b then .isTrue (by rw [h]) else .isFalse (by simp [h])
    | .error e, .error f =>
        if h : e = f then .isTrue (by rw [h]) else .isFalse (by simp [h])
    | .ok _, .error _ => .isFalse (by simp)
    | .error _, .ok _ => .isFalse (by simp)

/-! Theorems.  First, reduction lemmas for the cursor primitives. -/

/-- Sequencing after a successful read. -/
@[simp] theorem rbind_ok {α β : Type} (a : α) (s : Bytes)
    (k : α → Bytes → Except Err (β × Bytes)) : rbind (.ok (a, s)) k = k a s := rfl

/-- Sequencing after a failed read. -/
@[simp] theorem rbind_error {α β : Type} (e : Err)
    (k : α → Bytes → Except Err (β × Bytes)) : rbind (.error e) k = .error e := rfl

/-- The big-endian value of a byte list with one more low byte. -/
theorem natOfBytesBE_append_singleton (xs : Bytes) (b : Nat) :
    natOfBytesBE (xs ++ [b]) = natOfBytesBE xs * 256 + b := by
  simp [natOfBytesBE, List.foldl_append]

/-- A `w`-byte big-endian representation is `w` bytes long. -/
theorem bytesOfNatBE_length (w v : Nat) : (bytesOfNatBE w v).length = w := by
  induction w generalizing v with
  | zero => simp [bytesOfNatBE]
  | succ w ih => simp [bytesOfNatBE, ih]

/-- Reading back a `w`-byte big-endian representation gives the value modulo
`2^(8*w)`. -/
theorem natOfBytesBE_bytesOfNatBE (w v : Nat) :
    natOfBytesBE (bytesOfNatBE w v) = v % 2 ^ (8 * w) := by
  induction w generalizing v with
  | zero => simp [bytesOfNatBE, natOfBytesBE, Nat.mod_one]
  | succ w ih =>
    rw [bytesOfNatBE, natOfBytesBE_append_singleton, ih]
    have h1 : 2 ^ (8 * (w + 1)) = 256 * 2 ^ (8 * w) := by
      rw [Nat.mul_succ, pow_add]; ring
    rw [h1, Nat.mod_mul]
    ring

/-- An exact read of the first `n = xs.length` bytes consumes exactly `xs`. -/
theorem readExact_append {xs : Bytes} {n : Nat} (rest : Bytes) (h : xs.length = n) :
    readExact n (xs ++ rest) = .ok (xs, rest) := by
  subst h
  rw [readExact, if_pos (by simp)]
  rw [List.take_left, List.drop_left]

/-- `read_u8` on a non-empty buffer. -/
@[simp] theorem readU8_cons (b : Nat) (rest : Bytes) :
    readU8 (b :: rest) = .ok (b, rest) := rfl

/-- `to_short` / `read_u16` round-trip for a value in range. -/
theorem readU16_toShort (n : Nat) (rest : Bytes) (h : n < 65536) :
    readU16 (toShort (n : Int) ++ rest) = .ok (n, rest) := by
  have h1 : (((n : Int)) % 65536).toNat = n := by omega
  rw [readU16, toShort, h1, readExact_append rest (bytesOfNatBE_length 2 n), rbind_ok,
      natOfBytesBE_bytesOfNatBE]
  have h2 : n % 2 ^ (8 * 2) = n := by
    apply Nat.mod_eq_of_lt
    omega
  rw [h2]

/-- `to_int` / `read_i32` round-trip for a value in the 32-bit range. -/
theorem readI32_toInt (x : Int) (rest : Bytes)
    (h1 : -2147483648 ≤ x) (h2 : x < 2147483648) :
    readI32 (toInt x ++ rest) = .ok (x, rest) := by
  rw [readI32, toInt, readExact_append rest (bytesOfNatBE_length 4 _), rbind_ok]
  simp only [i32OfBytes, natOfBytesBE_bytesOfNatBE]
  have hm : (2 : Nat) ^ (8 * 4) = 4294967296 := by norm_num
  rw [hm]
  split <;> (simp only [Except.ok.injEq, Prod.mk.injEq, and_true]; omega)

/-- `to_bigint` / `read_i64` round-trip for a value in the 64-bit range. -/
theorem readI64_toBigint (x : Int) (rest : Bytes)
    (h1 : -9223372036854775808 ≤ x) (h2 : x < 9223372036854775808) :
    readI64 (toBigint x ++ rest) = .ok (x, rest) := by
  rw [readI64, toBigint, readExact_append rest (bytesOfNatBE_length 8 _), rbind_ok]
  simp only [i64OfBytes, natOfBytesBE_bytesOfNatBE]
  have hm : (2 : Nat) ^ (8 * 8) = 18446744073709551616 := by norm_num
  rw [hm]
  split <;> (simp only [Except.ok.injEq, Prod.mk.injEq, and_true]; omega)

/-- Consistency-level encode/decode round-trip for a code in range. -/
theorem consistency_roundtrip (c : Consistency) (rest : Bytes)
    (h : c.code < 65536) :
    Consistency.fromCursor (c.intoCbytes ++ rest) = .ok (c, rest) := by
  rw [Consistency.fromCursor, Consistency.intoCbytes, readU16_toShort c.code rest h, rbind_ok]

/-- Paging-state encode/decode round-trip for a token in range. -/
theorem cbytes_roundtrip (cb : CBytes) (rest : Bytes)
    (h : cb.bytes.length < 2147483648) :
    CBytes.fromCursor (cb.intoCbytes ++ rest) = .ok (cb, rest) := by
  rw [CBytes.fromCursor, CBytes.intoCbytes, List.append_assoc,
      readI32_toInt _ _ (by omega) (by omega), rbind_ok, if_neg (by omega)]
  have h1 : ((cb.bytes.length : Int)).toNat = cb.bytes.length := by omega
  rw [h1, readExact_append rest rfl, rbind_ok]

/-- The encoder emits exactly the guarded per-field sections: each optional
field's bytes appear exactly when its flag bit is derivable from the stored
flags list and the field is populated. -/
theorem intoCbytes_eq_spec (p : QueryParams) : p.intoCbytes = p.intoCbytesSpec := by
  rw [QueryParams.intoCbytes, QueryParams.intoCbytesSpec]
  cases hv : p.values <;> cases hps : p.page_size <;> cases hpg : p.paging_state <;>
    cases hsc : p.serial_consistency <;> cases hts : p.timestamp <;>
      simp [hv, hps, hpg, hsc, hts, List.append_assoc] <;>
        split_ifs <;> simp [List.append_assoc]

/-- A boolean gate whose condition is false selects its else branch. -/
theorem if_false_gate {α : Type} (c : Bool) (h : c = false) (m e : α) :
    (if c then m else e) = e := by
  rw [h]
  simp

/-- The spec-shaped page-size section reduces to `optIntSec` when the flag
bit mirrors the field's presence. -/
theorem sec_int (c : Bool) (o : Option Int) (h : c = o.isSome) :
    (if c && o.isSome then toInt o.get! else []) = optIntSec o := by
  cases o <;> simp [h, optIntSec]

/-- The spec-shaped paging-state section reduces to `optCBytesSec`. -/
theorem sec_cbytes (c : Bool) (o : Option CBytes) (h : c = o.isSome) :
    (if c && o.isSome then (o.get!).intoCbytes else []) = optCBytesSec o := by
  cases o <;> simp [h, optCBytesSec]

/-- The spec-shaped serial-consistency section reduces to `optConsSec`. -/
theorem sec_cons (c : Bool) (o : Option Consistency) (h : c = o.isSome) :
    (if c && o.isSome then (o.get!).intoCbytes else []) = optConsSec o := by
  cases o <;> simp [h, optConsSec]

/-- The spec-shaped timestamp section reduces to `optTsSec`. -/
theorem sec_ts (c : Bool) (o : Option Int) (h : c = o.isSome) :
    (if c && o.isSome then toBigint o.get! else []) = optTsSec o := by
  cases o <;> simp [h, optTsSec]

/-- Decoding the optional page-size section consumes exactly its bytes and
recovers the field. -/
theorem decode_opt_i32 (c : Bool) (o : Option Int) (rest : Bytes)
    (hb : c = o.isSome)
    (hr : o.all (fun x => decide (-2147483648 ≤ x) && decide (x < 2147483648)) = true) :
    (if c then rbind (readI32 (optIntSec o ++ rest)) fun ps s => .ok (some ps, s)
     else .ok (none, optIntSec o ++ rest)) = .ok (o, rest) := by
  cases o with
  | none => simp [hb, optIntSec]
  | some x =>
    simp only [Option.all, Bool.and_eq_true, decide_eq_true_eq] at hr
    simp only [hb, Option.isSome_some, if_true, optIntSec, Option.elim,
      readI32_toInt x rest hr.1 hr.2, rbind_ok]

/-- Decoding the optional paging-state section recovers the field. -/
theorem decode_opt_cbytes (c : Bool) (o : Option CBytes) (rest : Bytes)
    (hb : c = o.isSome)
    (hr : o.all (fun cb => decide (cb.bytes.length < 2147483648)) = true) :
    (if c then rbind (CBytes.fromCursor (optCBytesSec o ++ rest)) fun cb s => .ok (some cb, s)
     else .ok (none, optCBytesSec o ++ rest)) = .ok (o, rest) := by
  cases o with
  | none => simp [hb, optCBytesSec]
  | some cb =>
    simp only [Option.all, decide_eq_true_eq] at hr
    simp only [hb, Option.isSome_some, if_true, optCBytesSec, Option.elim,
      cbytes_roundtrip cb rest hr, rbind_ok]

/-- Decoding the optional serial-consistency section recovers the field. -/
theorem decode_opt_cons (c : Bool) (o : Option Consistency) (rest : Bytes)
    (hb : c = o.isSome)
    (hr : o.all (fun cc => decide (cc.code < 65536)) = true) :
    (if c then rbind (Consistency.fromCursor (optConsSec o ++ rest)) fun cc s => .ok (some cc, s)
     else .ok (none, optConsSec o ++ rest)) = .ok (o, rest) := by
  cases o with
  | none => simp [hb, optConsSec]
  | some cc =>
    simp only [Option.all, decide_eq_true_eq] at hr
    simp only [hb, Option.isSome_some, if_true, optConsSec, Option.elim,
      consistency_roundtrip cc rest hr, rbind_ok]

/-- Decoding the optional timestamp section recovers the field. -/
theorem decode_opt_i64 (c : Bool) (o : Option Int) (rest : Bytes)
    (hb : c = o.isSome)
    (hr : o.all (fun t =>
      decide (-9223372036854775808 ≤ t) && decide (t < 9223372036854775808)) = true) :
    (if c then rbind (readI64 (optTsSec o ++ rest)) fun t s => .ok (some t, s)
     else .ok (none, optTsSec o ++ rest)) = .ok (o, rest) := by
  cases o with
  | none => simp [hb, optTsSec]
  | some t =>
    simp only [Option.all, Bool.and_eq_true, decide_eq_true_eq] at hr
    simp only [hb, Option.isSome_some, if_true, optTsSec, Option.elim,
      readI64_toBigint t rest hr.1 hr.2, rbind_ok]

/-- C1 (amended): for every valid `QueryParams` *without values* (each
remaining optional field populated exactly when its flag bit is set, the
stored flags list canonical, `with_names` mirroring the names bit, every
field in its wire type's range), decoding the bytes produced by encoding
yields exactly the original, leaving any following bytes unconsumed.  The
claim's unrestricted form fails: see the counterexample, where a populated
value list does not round-trip (the encoder writes a 2-byte count, the
decoder reads a 1-byte count and then `count - 1` values). -/
theorem c1_round_trip_without_values (p : QueryParams) (rest : Bytes)
    (h : p.wfNoValues = true) :
    QueryParams.fromCursor (p.intoCbytes ++ rest) = .ok (p, rest) := by
  simp only [QueryParams.wfNoValues, Bool.and_eq_true, decide_eq_true_eq,
    Bool.not_eq_true', Option.isNone_iff_eq_none, beq_iff_eq] at h
  obtain ⟨⟨⟨⟨⟨⟨⟨⟨⟨⟨⟨⟨hcode, hflags⟩, hval⟩, hvnone⟩, hwn⟩, hpsb⟩, hpsr⟩,
    hpgb⟩, hpgr⟩, hscb⟩, hscr⟩, htsb⟩, htsr⟩ := h
  rw [intoCbytes_eq_spec, QueryParams.intoCbytesSpec]
  rw [if_false_gate _ (by rw [hval]; rfl), sec_int _ _ hpsb, sec_cbytes _ _ hpgb,
    sec_cons _ _ hscb, sec_ts _ _ htsb]
  simp only [List.append_assoc, List.nil_append, List.singleton_append, List.cons_append]
  rw [QueryParams.fromCursor, consistency_roundtrip p.consistency _ hcode,
    rbind_ok, readU8_cons, rbind_ok, if_false_gate _ hval, rbind_ok,
    decode_opt_i32 _ _ _ hpsb hpsr, rbind_ok, decode_opt_cbytes _ _ _ hpgb hpgr,
    rbind_ok, decode_opt_cons _ _ _ hscb hscr, rbind_ok,
    decode_opt_i64 _ _ _ htsb htsr, rbind_ok]
  rw [← hflags, ← hwn, ← hvnone]

/-- C1 (witness): the round-trip theorem applied to a concrete valid
`QueryParams` populating page size, paging state, serial consistency and
timestamp. -/
theorem c1_round_trip_witness :
    QueryParams.fromCursor (QueryParams.intoCbytes roundTripWitnessParams ++ []) =
      .ok (roundTripWitnessParams, []) :=
  c1_round_trip_without_values roundTripWitnessParams [] (by decide)

/-- C1 (counterexample): the spec's own concrete scenario — consistency
`One`, two positional values `[Normal "x", Null]` — does not round-trip:
the decoder returns an empty positional list (the encoder wrote the count
`2` as two bytes `[0, 2]`, the decoder consumed only the `0` and then read
`0 - 1 = 0` values). -/
theorem c1_round_trip_cex :
    (QueryParams.fromCursor (QueryParams.intoCbytes roundTripCexParams)).map Prod.fst ≠
      Except.ok roundTripCexParams ∧
    (QueryParams.fromCursor (QueryParams.intoCbytes roundTripCexParams)).map
        (fun r => r.1.values) = Except.ok (some (QueryValues.SimpleValues [])) := by
  decide

/-- The consistency level's encoding is two bytes long. -/
theorem consistency_intoCbytes_length (c : Consistency) : c.intoCbytes.length = 2 := by
  rw [Consistency.intoCbytes, toShort]
  exact bytesOfNatBE_length 2 _

/-- C4 (amended): the flags byte `into_cbytes` writes (the byte at offset 2,
after the 2-byte consistency) is the bitwise-or fold of the *stored* flags
list (`flags_as_byte`), copied from the stored flags, not recomputed from
the populated fields — so a stored flags list that disagrees with the
populated fields desynchronizes the emitted flags byte from field presence
(see the counterexample). -/
theorem c4_flags_byte_from_stored_list (p : QueryParams) :
    (p.intoCbytes).getD 2 0 = p.flags.foldl (fun acc flag => acc ||| flag.asByte) 0 := by
  rw [intoCbytes_eq_spec, QueryParams.intoCbytesSpec]
  simp only [List.append_assoc, List.singleton_append, List.cons_append]
  rw [List.getD_append_right _ _ _ _ (by rw [consistency_intoCbytes_length])]
  rw [consistency_intoCbytes_length]
  rfl

/-- C4 (counterexample): a `QueryParams` storing the `PageSize` flag with no
`page_size` value emits flags byte `4`, while the logical OR of the bits
implied by the populated optional fields is `0` — the emitted byte is not
recomputed from field presence. -/
theorem c4_flags_byte_cex :
    (QueryParams.intoCbytes staleFlagsParams).getD 2 0 = 4 ∧
    impliedFlagsByte staleFlagsParams = 0 ∧
    (QueryParams.intoCbytes staleFlagsParams).getD 2 0 ≠
      impliedFlagsByte staleFlagsParams := by
  decide

/-- C10: `into_cbytes` emits exactly the guarded sections — after the
consistency bytes and the flags byte, each optional field's bytes are
written iff the field's flag bit is derivable from the stored flags list
and the field itself is populated; on a flag bit without its field, or a
field without its flag bit, the section is silently omitted (never a
failure: the shallow embedding is total, and every field access is guarded
by the same `isSome` test the source checks before `unwrap`). -/
theorem c10_encoder_guarded_sections (p : QueryParams) :
    p.intoCbytes = p.intoCbytesSpec :=
  intoCbytes_eq_spec p

/-- C3 (code bug): the builder's `serial_consistency` and `timestamp`
setters store their field but never append the corresponding flag bit, so
after `QueryParamsBuilder::new().serial_consistency(⟨8⟩).finalize()` (and
likewise for `timestamp(5)`) the field is populated while the flags list is
empty and the flag bit is unset — violating the claimed invariant. -/
theorem c3_builder_flag_bits_dropped :
    ((QueryParamsBuilder.new.serial_consistency' ⟨8⟩).finalize).serial_consistency =
        some ⟨8⟩ ∧
    ((QueryParamsBuilder.new.serial_consistency' ⟨8⟩).finalize).flags = [] ∧
    QueryFlags.hasWithSerialConsistency
        ((QueryParamsBuilder.new.serial_consistency' ⟨8⟩).finalize).flagsAsByte = false ∧
    ((QueryParamsBuilder.new.timestamp' 5).finalize).timestamp = some 5 ∧
    ((QueryParamsBuilder.new.timestamp' 5).finalize).flags = [] ∧
    QueryFlags.hasWithDefaultTimestamp
        ((QueryParamsBuilder.new.timestamp' 5).finalize).flagsAsByte = false := by
  decide

/-- The big-endian value of two bytes. -/
theorem natOfBytesBE_pair (a b : Nat) : natOfBytesBE [a, b] = a * 256 + b := by
  simp [natOfBytesBE, List.foldl]

/-- The positional-value loop returns exactly as many values as it was asked
to read. -/
theorem readSimpleValues_length (n : Nat) :
    ∀ (s : Bytes) (vs : List Value) (rest : Bytes),
      readSimpleValues n s = .ok (vs, rest) → vs.length = n := by
  induction n with
  | zero =>
    intro s vs rest h
    simp only [readSimpleValues, Except.ok.injEq, Prod.mk.injEq] at h
    rw [← h.1]
    rfl
  | succ n ih =>
    intro s vs rest h
    rw [readSimpleValues] at h
    cases hv : readSimpleValue s with
    | error e => rw [hv, rbind_error] at h; exact absurd h (by simp)
    | ok p =>
      obtain ⟨v, s1⟩ := p
      rw [hv, rbind_ok] at h
      cases hrec : readSimpleValues n s1 with
      | error e => rw [hrec, rbind_error] at h; exact absurd h (by simp)
      | ok q =>
        obtain ⟨vec, s2⟩ := q
        rw [hrec, rbind_ok] at h
        simp only [Except.ok.injEq, Prod.mk.injEq] at h
        rw [← h.1]
        simp [ih s1 vec s2 hrec]

/-- Decoding with flags byte `1` (only the Value flag): the count byte `n`
is followed by `n - 1` positional values and nothing else. -/
theorem fromCursor_value_simple_ok (a b n : Nat) (tail : Bytes) (vs : List Value)
    (rest : Bytes) (hvals : readSimpleValues (n - 1) tail = .ok (vs, rest)) :
    QueryParams.fromCursor ([a, b, 1, n] ++ tail) =
      .ok ({ consistency := ⟨a * 256 + b⟩, flags := [QueryFlags.Value],
             with_names := some false,
             values := some (QueryValues.SimpleValues vs),
             page_size := none, paging_state := none, serial_consistency := none,
             timestamp := none }, rest) := by
  have hsplit : ([a, b, 1, n] ++ tail : Bytes) = [a, b] ++ (1 :: n :: tail) := rfl
  rw [hsplit, QueryParams.fromCursor, Consistency.fromCursor, readU16,
    readExact_append _ (show ([a, b] : Bytes).length = 2 from rfl)]
  simp only [rbind_ok, readU8_cons,
    show QueryFlags.hasValue 1 = true from rfl,
    show QueryFlags.hasWithNamesForValues 1 = false from rfl,
    show QueryFlags.hasPageSize 1 = false from rfl,
    show QueryFlags.hasWithPagingState 1 = false from rfl,
    show QueryFlags.hasWithSerialConsistency 1 = false from rfl,
    show QueryFlags.hasWithDefaultTimestamp 1 = false from rfl,
    if_true, if_false, Bool.false_eq_true, hvals]
  rw [natOfBytesBE_pair]
  rfl

/-- Decoding with flags byte `1`: a failing positional-value loop fails the
whole decode with its error. -/
theorem fromCursor_value_simple_error (a b n : Nat) (tail : Bytes) (e : Err)
    (hvals : readSimpleValues (n - 1) tail = .error e) :
    QueryParams.fromCursor ([a, b, 1, n] ++ tail) = .error e := by
  have hsplit : ([a, b, 1, n] ++ tail : Bytes) = [a, b] ++ (1 :: n :: tail) := rfl
  rw [hsplit, QueryParams.fromCursor, Consistency.fromCursor, readU16,
    readExact_append _ (show ([a, b] : Bytes).length = 2 from rfl)]
  simp only [rbind_ok, readU8_cons,
    show QueryFlags.hasValue 1 = true from rfl,
    show QueryFlags.hasWithNamesForValues 1 = false from rfl,
    show QueryFlags.hasPageSize 1 = false from rfl,
    show QueryFlags.hasWithPagingState 1 = false from rfl,
    show QueryFlags.hasWithSerialConsistency 1 = false from rfl,
    show QueryFlags.hasWithDefaultTimestamp 1 = false from rfl,
    if_true, if_false, Bool.false_eq_true, hvals, rbind_error]

/-- Decoding with flags byte `65` (Value and WithNamesForValues): the count
byte `n` is followed by `n - 1` named values accumulated into the map. -/
theorem fromCursor_value_named_ok (a b n : Nat) (tail : Bytes)
    (m : List (Bytes × Value)) (rest : Bytes)
    (hvals : readNamedValues (n - 1) [] tail = .ok (m, rest)) :
    QueryParams.fromCursor ([a, b, 65, n] ++ tail) =
      .ok ({ consistency := ⟨a * 256 + b⟩,
             flags := [QueryFlags.Value, QueryFlags.WithNamesForValues],
             with_names := some true,
             values := some (QueryValues.NamedValues m),
             page_size := none, paging_state := none, serial_consistency := none,
             timestamp := none }, rest) := by
  have hsplit : ([a, b, 65, n] ++ tail : Bytes) = [a, b] ++ (65 :: n :: tail) := rfl
  rw [hsplit, QueryParams.fromCursor, Consistency.fromCursor, readU16,
    readExact_append _ (show ([a, b] : Bytes).length = 2 from rfl)]
  simp only [rbind_ok, readU8_cons,
    show QueryFlags.hasValue 65 = true from rfl,
    show QueryFlags.hasWithNamesForValues 65 = true from rfl,
    show QueryFlags.hasPageSize 65 = false from rfl,
    show QueryFlags.hasWithPagingState 65 = false from rfl,
    show QueryFlags.hasWithSerialConsistency 65 = false from rfl,
    show QueryFlags.hasWithDefaultTimestamp 65 = false from rfl,
    if_true, if_false, Bool.false_eq_true, hvals]
  rw [natOfBytesBE_pair]
  rfl

/-- Decoding with flags byte `65`: a failing named-value loop fails the
whole decode with its error. -/
theorem fromCursor_value_named_error (a b n : Nat) (tail : Bytes) (e : Err)
    (hvals : readNamedValues (n - 1) [] tail = .error e) :
    QueryParams.fromCursor ([a, b, 65, n] ++ tail) = .error e := by
  have hsplit : ([a, b, 65, n] ++ tail : Bytes) = [a, b] ++ (65 :: n :: tail) := rfl
  rw [hsplit, QueryParams.fromCursor, Consistency.fromCursor, readU16,
    readExact_append _ (show ([a, b] : Bytes).length = 2 from rfl)]
  simp only [rbind_ok, readU8_cons,
    show QueryFlags.hasValue 65 = true from rfl,
    show QueryFlags.hasWithNamesForValues 65 = true from rfl,
    if_true, if_false, Bool.false_eq_true, hvals, rbind_error]

/-- A length-prefixed string's encode/decode round-trip for a name whose
length fits the 2-byte prefix. -/
theorem cstring_roundtrip (name : Bytes) (rest : Bytes) (h : name.length < 65536) :
    CString.fromCursor (cstringIntoCbytes name ++ rest) = .ok (name, rest) := by
  rw [CString.fromCursor, cstringIntoCbytes, List.append_assoc,
    readU16_toShort name.length (name ++ rest) h, rbind_ok, readExact_append rest rfl]

/-- `HashMap::insert` grows the association list by at most one entry. -/
theorem insertNamed_length (m : List (Bytes × Value)) (k : Bytes) (v : Value) :
    (insertNamed m k v).length ≤ m.length + 1 := by
  induction m with
  | nil => simp [insertNamed]
  | cons hd tl ih =>
    obtain ⟨k1, v1⟩ := hd
    rw [insertNamed]
    split
    · simp
    · simp only [List.length_cons]
      omega

/-- The named-value loop grows the accumulated map by at most one entry per
iteration. -/
theorem readNamedValues_length (n : Nat) :
    ∀ (m : List (Bytes × Value)) (s : Bytes) (m2 : List (Bytes × Value))
      (rest : Bytes), readNamedValues n m s = .ok (m2, rest) →
      m2.length ≤ m.length + n := by
  induction n with
  | zero =>
    intro m s m2 rest h
    simp only [readNamedValues, Except.ok.injEq, Prod.mk.injEq] at h
    obtain ⟨rfl, rfl⟩ := h
    simp
  | succ n ih =>
    intro m s m2 rest h
    rw [readNamedValues] at h
    cases hv : readNamedValue s with
    | error e => rw [hv, rbind_error] at h; exact absurd h (by simp)
    | ok p =>
      obtain ⟨nv, s1⟩ := p
      rw [hv, rbind_ok] at h
      have hrec := ih (insertNamed m nv.1 nv.2) s1 m2 rest h
      have hins := insertNamed_length m nv.1 nv.2
      omega

/-- C5: when the Value flag is set, `from_cursor` reads a one-byte count `N`
and then decodes exactly `N - 1` values (the loop runs over `1..N`), each
shape settled by its own conjunct: positional values (flags byte `1`) into
an ordered list of exactly `N - 1` elements, named values (flags byte `65`,
the `WithNamesForValues` bit set) into the name-keyed map accumulated over
the `N - 1` reads (at most `N - 1` entries, duplicate names replacing). -/
theorem c5_count_reads_one_less (a b n : Nat) (tail : Bytes) :
    (∀ (vs : List Value) (rest : Bytes),
       readSimpleValues (n - 1) tail = .ok (vs, rest) →
       QueryParams.fromCursor ([a, b, 1, n] ++ tail) =
         .ok ({ consistency := ⟨a * 256 + b⟩, flags := [QueryFlags.Value],
                with_names := some false,
                values := some (QueryValues.SimpleValues vs),
                page_size := none, paging_state := none, serial_consistency := none,
                timestamp := none }, rest) ∧
       vs.length = n - 1) ∧
    (∀ (m : List (Bytes × Value)) (rest2 : Bytes),
       readNamedValues (n - 1) [] tail = .ok (m, rest2) →
       QueryParams.fromCursor ([a, b, 65, n] ++ tail) =
         .ok ({ consistency := ⟨a * 256 + b⟩,
                flags := [QueryFlags.Value, QueryFlags.WithNamesForValues],
                with_names := some true,
                values := some (QueryValues.NamedValues m),
                page_size := none, paging_state := none, serial_consistency := none,
                timestamp := none }, rest2) ∧
       m.length ≤ n - 1) := by
  constructor
  · intro vs rest hvals
    exact ⟨fromCursor_value_simple_ok a b n tail vs rest hvals,
      readSimpleValues_length (n - 1) tail vs rest hvals⟩
  · intro m rest2 hnamed
    refine ⟨fromCursor_value_named_ok a b n tail m rest2 hnamed, ?_⟩
    have := readNamedValues_length (n - 1) [] tail m rest2 hnamed
    simpa using this

/-- C5 (witness): a positional buffer declaring three values but carrying
two (`Normal "x"` then `Null`) decodes to a two-element list (`3 - 1 = 2`
values are read), and a named buffer declaring two values but carrying one
(name `"k"`, value `NotSet`) decodes to a one-entry map. -/
theorem c5_count_witness :
    (QueryParams.fromCursor
        ([0, 1, 1, 3] ++ [0, 0, 0, 1, 120, 255, 255, 255, 255]) =
      .ok ({ consistency := ⟨1⟩, flags := [QueryFlags.Value],
             with_names := some false,
             values := some (QueryValues.SimpleValues
               [{ body := [120], value_type := ValueType.Normal 1 }, Value.newNull]),
             page_size := none, paging_state := none, serial_consistency := none,
             timestamp := none }, [])) ∧
    ([{ body := [120], value_type := ValueType.Normal 1 },
      Value.newNull] : List Value).length = 3 - 1 ∧
    (QueryParams.fromCursor ([0, 1, 65, 2] ++ [0, 1, 107, 255, 255, 255, 254]) =
      .ok ({ consistency := ⟨1⟩,
             flags := [QueryFlags.Value, QueryFlags.WithNamesForValues],
             with_names := some true,
             values := some (QueryValues.NamedValues [([107], Value.newNotSet)]),
             page_size := none, paging_state := none, serial_consistency := none,
             timestamp := none }, [])) := by
  have h1 := (c5_count_reads_one_less 0 1 3 [0, 0, 0, 1, 120, 255, 255, 255, 255]).1
    [{ body := [120], value_type := ValueType.Normal 1 }, Value.newNull] [] (by decide)
  have h2 := (c5_count_reads_one_less 0 1 2 [0, 1, 107, 255, 255, 255, 254]).2
    [([107], Value.newNotSet)] [] (by decide)
  exact ⟨h1.1, h1.2, h2.1⟩

/-- C6: a value's 4-byte signed big-endian length `L` dispatches exactly as
claimed on both decoding paths — positional (`readSimpleValue`, flags byte
`1`) and named, where a length-prefixed name precedes the same dispatch
(`readNamedValue`, flags byte `65`): `L > 0` yields a `Normal` value whose
body is the next `L` bytes; `L = -1` yields `Null`; `L = -2` yields
`NotSet`; any other `L` (zero, or `-3` and below) is the decode error
"Could not decode query values", which propagates so that `from_cursor`
fails instead of returning a `QueryParams`. -/
theorem c6_value_length_dispatch (L : Int) (rest : Bytes) (name : Bytes)
    (h1 : -2147483648 ≤ L) (h2 : L < 2147483648)
    (hname : name.length < 65536) :
    (0 < L → L.toNat ≤ rest.length →
       readSimpleValue (toInt L ++ rest) =
         .ok ({ body := rest.take L.toNat,
                value_type := ValueType.Normal ((rest.take L.toNat).length : Int) },
              rest.drop L.toNat)) ∧
    (L = -1 → readSimpleValue (toInt L ++ rest) = .ok (Value.newNull, rest)) ∧
    (L = -2 → readSimpleValue (toInt L ++ rest) = .ok (Value.newNotSet, rest)) ∧
    (L ≤ 0 → L ≠ -1 → L ≠ -2 →
       readSimpleValue (toInt L ++ rest) =
         .error (Err.General "Could not decode query values") ∧
       ∀ a b : Nat,
         QueryParams.fromCursor ([a, b, 1, 2] ++ (toInt L ++ rest)) =
           .error (Err.General "Could not decode query values")) ∧
    (0 < L → L.toNat ≤ rest.length →
       readNamedValue (cstringIntoCbytes name ++ (toInt L ++ rest)) =
         .ok ((name, Value.newNormal (rest.take L.toNat)), rest.drop L.toNat)) ∧
    (L = -1 → readNamedValue (cstringIntoCbytes name ++ (toInt L ++ rest)) =
       .ok ((name, Value.newNull), rest)) ∧
    (L = -2 → readNamedValue (cstringIntoCbytes name ++ (toInt L ++ rest)) =
       .ok ((name, Value.newNotSet), rest)) ∧
    (L ≤ 0 → L ≠ -1 → L ≠ -2 →
       readNamedValue (cstringIntoCbytes name ++ (toInt L ++ rest)) =
         .error (Err.General "Could not decode query values") ∧
       ∀ a b : Nat,
         QueryParams.fromCursor
             ([a, b, 65, 2] ++ (cstringIntoCbytes name ++ (toInt L ++ rest))) =
           .error (Err.General "Could not decode query values")) := by
  have hread : readSimpleValue (toInt L ++ rest) =
      (if 0 < L then
         rbind (readExact L.toNat rest) fun body s =>
           .ok ({ body := body, value_type := ValueType.Normal (body.length : Int) }, s)
       else if L = -1 then .ok (Value.newNull, rest)
       else if L = -2 then .ok (Value.newNotSet, rest)
       else .error (Err.General "Could not decode query values")) := by
    rw [readSimpleValue, readI32_toInt L rest h1 h2, rbind_ok]
  have hreadn : readNamedValue (cstringIntoCbytes name ++ (toInt L ++ rest)) =
      rbind (if 0 < L then
               rbind (readExact L.toNat rest) fun body s =>
                 .ok (Value.newNormal body, s)
             else if L = -1 then .ok (Value.newNull, rest)
             else if L = -2 then .ok (Value.newNotSet, rest)
             else .error (Err.General "Could not decode query values"))
        fun val s => .ok ((name, val), s) := by
    rw [readNamedValue, cstring_roundtrip name (toInt L ++ rest) hname, rbind_ok,
      readI32_toInt L rest h1 h2, rbind_ok]
  refine ⟨?_, ?_, ?_, ?_, ?_, ?_, ?_, ?_⟩
  · intro hpos hlen
    rw [hread, if_pos hpos, readExact, if_pos hlen, rbind_ok]
  · intro hL
    rw [hread, if_neg (by omega), if_pos hL]
  · intro hL
    rw [hread, if_neg (by omega), if_neg (by omega), if_pos hL]
  · intro hle hn1 hn2
    have herr : readSimpleValue (toInt L ++ rest) =
        .error (Err.General "Could not decode query values") := by
      rw [hread, if_neg (by omega), if_neg hn1, if_neg hn2]
    refine ⟨herr, ?_⟩
    intro a b
    apply fromCursor_value_simple_error
    show readSimpleValues (2 - 1) (toInt L ++ rest) = _
    rw [show (2 - 1 : Nat) = 1 from rfl, readSimpleValues, herr, rbind_error]
  · intro hpos hlen
    rw [hreadn, if_pos hpos, readExact, if_pos hlen, rbind_ok, rbind_ok]
  · intro hL
    rw [hreadn, if_neg (by omega), if_pos hL, rbind_ok]
  · intro hL
    rw [hreadn, if_neg (by omega), if_neg (by omega), if_pos hL, rbind_ok]
  · intro hle hn1 hn2
    have herrn : readNamedValue (cstringIntoCbytes name ++ (toInt L ++ rest)) =
        .error (Err.General "Could not decode query values") := by
      rw [hreadn, if_neg (by omega), if_neg hn1, if_neg hn2, rbind_error]
    refine ⟨herrn, ?_⟩
    intro a b
    apply fromCursor_value_named_error
    show readNamedValues (2 - 1) [] (cstringIntoCbytes name ++ (toInt L ++ rest)) = _
    rw [show (2 - 1 : Nat) = 1 from rfl, readNamedValues, herrn, rbind_error]

/-- C6 (witness): length `-2` decodes to `NotSet` and length `-3` is the
"Could not decode query values" failure, on the positional path and — with
name `"k"` length-prefixed before the length field — on the named path,
each also at the `from_cursor` level. -/
theorem c6_value_length_witness :
    readSimpleValue (toInt (-2) ++ []) = .ok (Value.newNotSet, []) ∧
    readSimpleValue (toInt (-3) ++ []) =
      .error (Err.General "Could not decode query values") ∧
    QueryParams.fromCursor ([0, 1, 1, 2] ++ (toInt (-3) ++ [])) =
      .error (Err.General "Could not decode query values") ∧
    readNamedValue (cstringIntoCbytes [107] ++ (toInt (-2) ++ [])) =
      .ok (([107], Value.newNotSet), []) ∧
    readNamedValue (cstringIntoCbytes [107] ++ (toInt (-3) ++ [])) =
      .error (Err.General "Could not decode query values") ∧
    QueryParams.fromCursor
        ([0, 1, 65, 2] ++ (cstringIntoCbytes [107] ++ (toInt (-3) ++ []))) =
      .error (Err.General "Could not decode query values") := by
  have h2 := c6_value_length_dispatch (-2) [] [107] (by decide) (by decide) (by decide)
  have h3 := c6_value_length_dispatch (-3) [] [107] (by decide) (by decide) (by decide)
  refine ⟨h2.2.2.1 rfl, (h3.2.2.2.1 (by decide) (by decide) (by decide)).1,
    (h3.2.2.2.1 (by decide) (by decide) (by decide)).2 0 1,
    h2.2.2.2.2.2.2.1 rfl,
    (h3.2.2.2.2.2.2.2 (by decide) (by decide) (by decide)).1,
    (h3.2.2.2.2.2.2.2 (by decide) (by decide) (by decide)).2 0 1⟩

/-- C2: for a buffer holding an exact complete frame (header plus the
declared body length), feeding `parse_frame_async` any strict prefix — any
short read of the five header fields or the body — returns the
"insufficient data" signal `.ok none`, never an error; the caller's buffer
is untouched (the decoder is a pure function of it), so retrying once all
bytes are present is the very same computation as decoding the complete
buffer in one call and yields its frame. -/
theorem c2_partial_read_retry (comp : Bytes → Except String Bytes)
    (s : Bytes) (k : Nat)
    (hlen : s.length = 9 + fromBytes ((s.drop 5).take 4))
    (hk : k < s.length) :
    parseFrameAsync comp (s.take k) = .ok none := by
  have hl : (s.take k).length = k := by
    rw [List.length_take]
    omega
  simp only [parseFrameAsync]
  split_ifs with h1 h2 h3 h4 h5 h6 h7 <;>
    first
    | rfl
    | (exfalso
       simp only [List.length_take, List.length_drop, List.drop_drop, Nat.reduceAdd, hl]
         at h1 h2 h3 h4 h5 h6
       rw [List.drop_take] at h6
       have h9 : 9 ≤ k := by omega
       rw [List.take_take, Nat.min_eq_left (by omega)] at h6
       omega)

/-- C2 (witness): a 9-byte frame with declared body length zero; its 3-byte
prefix yields the insufficient-data signal. -/
theorem c2_partial_read_witness :
    parseFrameAsync (fun bs => .ok bs) (List.take 3 [4, 0, 0, 1, 5, 0, 0, 0, 0]) =
      .ok none :=
  c2_partial_read_retry (fun bs => .ok bs) [4, 0, 0, 1, 5, 0, 0, 0, 0] 3
    (by decide) (by decide)

/-- A buffer holding an exact complete frame decodes past the header and
body in one pass: the raw body is the bytes after the 9-byte header, the
compressor gates on the Compression flag, and the rest is
`frameFromFullBody`. -/
theorem parseFrameAsync_complete (comp : Bytes → Except String Bytes) (s : Bytes)
    (h9 : 9 ≤ s.length)
    (hlen : s.length = 9 + fromBytes ((s.drop 5).take 4)) :
    parseFrameAsync comp s =
      match (if (Flag.getCollection (((s.drop 1).take 1).headD 0)).contains Flag.Compression
             then comp (s.drop 9) else .ok (s.drop 9)) with
      | .error e => .error (Err.General e)
      | .ok full_body =>
          (frameFromFullBody (Version.fromBytes (s.take 1))
            (Flag.getCollection (((s.drop 1).take 1).headD 0))
            (Opcode.fromByte (((s.drop 4).take 1).headD 0))
            (fromU16Bytes ((s.drop 2).take 2)) full_body).map some := by
  simp only [parseFrameAsync, List.drop_drop, Nat.reduceAdd]
  rw [if_neg (by omega),
    if_neg (by simp only [List.length_drop]; omega),
    if_neg (by simp only [List.length_drop]; omega),
    if_neg (by simp only [List.length_drop]; omega),
    if_neg (by simp only [List.length_drop]; omega),
    if_neg (by simp only [List.length_drop]; omega),
    List.take_of_length_le (show (List.drop 9 s).length ≤
      fromBytes (List.take 4 (List.drop 5 s)) by simp only [List.length_drop]; omega)]

/-- C7: for a buffer holding an exact complete frame, the full body the
decoder hands to the body parser is gated only by the Compression flag:
with the flag unset it is the raw body bytes (`s.drop 9`) unchanged and the
compressor is never consulted; with the flag set it is `comp` applied to the
raw body, and a compressor failure fails the whole decode with the wrapped
description — never the retry signal. -/
theorem c7_compression_transparency (comp : Bytes → Except String Bytes) (s : Bytes)
    (h9 : 9 ≤ s.length)
    (hlen : s.length = 9 + fromBytes ((s.drop 5).take 4)) :
    ((Flag.getCollection (((s.drop 1).take 1).headD 0)).contains Flag.Compression = false →
       parseFrameAsync comp s =
         (frameFromFullBody (Version.fromBytes (s.take 1))
           (Flag.getCollection (((s.drop 1).take 1).headD 0))
           (Opcode.fromByte (((s.drop 4).take 1).headD 0))
           (fromU16Bytes ((s.drop 2).take 2)) (s.drop 9)).map some) ∧
    (∀ d, (Flag.getCollection (((s.drop 1).take 1).headD 0)).contains Flag.Compression = true →
       comp (s.drop 9) = .ok d →
       parseFrameAsync comp s =
         (frameFromFullBody (Version.fromBytes (s.take 1))
           (Flag.getCollection (((s.drop 1).take 1).headD 0))
           (Opcode.fromByte (((s.drop 4).take 1).headD 0))
           (fromU16Bytes ((s.drop 2).take 2)) d).map some) ∧
    (∀ e, (Flag.getCollection (((s.drop 1).take 1).headD 0)).contains Flag.Compression = true →
       comp (s.drop 9) = .error e →
       parseFrameAsync comp s = .error (Err.General e)) := by
  refine ⟨?_, ?_, ?_⟩
  · intro hflag
    rw [parseFrameAsync_complete comp s h9 hlen, if_neg (by rw [hflag]; simp)]
  · intro d hflag hcomp
    rw [parseFrameAsync_complete comp s h9 hlen, if_pos hflag, hcomp]
  · intro e hflag hcomp
    rw [parseFrameAsync_complete comp s h9 hlen, if_pos hflag, hcomp]

/-- A compressor for the witnesses: it decodes every body to `[7]`. -/
def constComp : Bytes → Except String Bytes := fun _ => .ok [7]

/-- C7 (witness): a complete frame with the Compression flag set and a
2-byte raw body; the full body handed on is the compressor's output. -/
theorem c7_compression_witness :
    parseFrameAsync constComp [4, 1, 0, 1, 5, 0, 0, 0, 2, 9, 9] =
      (frameFromFullBody (Version.fromBytes ([4, 1, 0, 1, 5, 0, 0, 0, 2, 9, 9].take 1))
        (Flag.getCollection ((([4, 1, 0, 1, 5, 0, 0, 0, 2, 9, 9].drop 1).take 1).headD 0))
        (Opcode.fromByte ((([4, 1, 0, 1, 5, 0, 0, 0, 2, 9, 9].drop 4).take 1).headD 0))
        (fromU16Bytes (([4, 1, 0, 1, 5, 0, 0, 0, 2, 9, 9].drop 2).take 2))
        [7]).map some :=
  (c7_compression_transparency constComp [4, 1, 0, 1, 5, 0, 0, 0, 2, 9, 9]
    (by decide) (by decide)).2.1 [7] (by decide) rfl

/-- With the Tracing flag set, a full body of at least 16 bytes whose
16-byte prefix fails the time-ordered-identifier decode still yields a
frame: `tracing_id` degrades to `none` and the body is the remainder (the
Warning flag unset). -/
theorem frameFromFullBody_tracing_degrade (version : Version) (flags : List Flag)
    (opcode : Opcode) (stream : Nat) (full_body : Bytes)
    (htr : flags.contains Flag.Tracing = true)
    (hwarn : flags.contains Flag.Warning = false)
    (h16 : 16 ≤ full_body.length)
    (hbad : (decodeTimeuuid (full_body.take 16)).toOption = none) :
    frameFromFullBody version flags opcode stream full_body =
      .ok { version := version, flags := flags, opcode := opcode, stream := stream,
            body := full_body.drop 16, tracing_id := none, warnings := [] } := by
  rw [frameFromFullBody, if_pos htr, readExact, if_pos h16, rbind_ok, hbad, rbind_ok,
    if_neg (by rw [hwarn]; simp), rbind_ok]

/-- C9: for a complete frame whose flags set Tracing (Warning unset) and
whose full body — after the compression gate — has at least 16 bytes that do
not decode as a valid time-ordered identifier, `parse_frame_async` still
succeeds, and the resulting frame's `tracing_id` is `none` while the 16
bytes are consumed from the body. -/
theorem c9_tracing_best_effort (comp : Bytes → Except String Bytes) (s : Bytes)
    (full_body : Bytes)
    (h9 : 9 ≤ s.length)
    (hlen : s.length = 9 + fromBytes ((s.drop 5).take 4))
    (hfull : (if (Flag.getCollection (((s.drop 1).take 1).headD 0)).contains Flag.Compression
              then comp (s.drop 9) else .ok (s.drop 9)) = .ok full_body)
    (htr : (Flag.getCollection (((s.drop 1).take 1).headD 0)).contains Flag.Tracing = true)
    (hwarn : (Flag.getCollection (((s.drop 1).take 1).headD 0)).contains Flag.Warning = false)
    (h16 : 16 ≤ full_body.length)
    (hbad : (decodeTimeuuid (full_body.take 16)).toOption = none) :
    parseFrameAsync comp s =
      .ok (some { version := Version.fromBytes (s.take 1),
                  flags := Flag.getCollection (((s.drop 1).take 1).headD 0),
                  opcode := Opcode.fromByte (((s.drop 4).take 1).headD 0),
                  stream := fromU16Bytes ((s.drop 2).take 2),
                  body := full_body.drop 16, tracing_id := none, warnings := [] }) := by
  have hred : parseFrameAsync comp s =
      (frameFromFullBody (Version.fromBytes (s.take 1))
        (Flag.getCollection (((s.drop 1).take 1).headD 0))
        (Opcode.fromByte (((s.drop 4).take 1).headD 0))
        (fromU16Bytes ((s.drop 2).take 2)) full_body).map some := by
    rw [parseFrameAsync_complete comp s h9 hlen, hfull]
  rw [hred, frameFromFullBody_tracing_degrade _ _ _ _ _ htr hwarn h16 hbad]
  rfl

/-- C9 (witness): a complete uncompressed frame with the Tracing flag and a
16-byte all-zero body: the identifier decode fails (wrong version nibble),
yet the frame decodes with `tracing_id = none`. -/
theorem c9_tracing_witness :
    parseFrameAsync constComp ([4, 2, 0, 1, 5, 0, 0, 0, 16] ++ List.replicate 16 0) =
      .ok (some { version := ⟨4⟩, flags := [Flag.Tracing], opcode := Opcode.Other 5,
                  stream := 1, body := [], tracing_id := none, warnings := [] }) := by
  have h := c9_tracing_best_effort constComp
    ([4, 2, 0, 1, 5, 0, 0, 0, 16] ++ List.replicate 16 0) (List.replicate 16 0)
    (by decide) (by decide) (by decide) (by decide) (by decide) (by decide) (by decide)
  rw [h]
  rfl

/-- C8: `convert_frame_into_result` surfaces an Error-opcode frame whose
body decodes as the structured server error as the propagated
`Err.Server` failure — never a successful frame — and returns every
other-opcode frame unchanged. -/
theorem c8_error_frame_classifier (f : Frame) :
    (∀ code message, f.opcode = Opcode.Error →
       decodeServerError f.body = .ok (code, message) →
       convertFrameIntoResult f = .error (Err.Server code message)) ∧
    (f.opcode ≠ Opcode.Error → convertFrameIntoResult f = .ok f) := by
  constructor
  · intro code message hop hdec
    simp only [convertFrameIntoResult, Frame.getBody, hop, hdec]
  · intro hne
    cases hop : f.opcode with
    | Error => exact absurd hop hne
    | Other c => simp only [convertFrameIntoResult, hop]

/-- C8 (witness): a frame with the Error opcode and a body holding error
code `-3` and message `"x"` converts to the propagated server failure. -/
theorem c8_error_frame_witness :
    convertFrameIntoResult errorFrameEx = .error (Err.Server (-3) [120]) :=
  (c8_error_frame_classifier errorFrameEx).1 (-3) [120] rfl (by decide)

end CassProto
